import Mathlib

/-!
Shallow embedding of src/securityhub-processor/src/securityhub_scheduler.py.

Timestamps are modelled as integers counting milliseconds since the Unix
epoch; the ISO-format round trip (isoformat / dateutil.parser.parse) is the
identity under this encoding.  The current wall-clock time, read by
get_current_datetime in the source, is modelled as a single parameter now
of each time-dependent function (one cycle is treated as instantaneous).
The is_locked attribute is stored as a number in the lock table and the
source tests int(row["is_locked"]) == 0, so it is modelled as an Int.
-/

/-- One row of the provider lock table, mirroring the dict literals built in
get_rows (keys: product_arn, is_locked, last_locked_date, last_event_date). -/
structure Row where
  product_arn : String
  is_locked : Int
  last_locked_date : Int
  last_event_date : Int
deriving DecidableEq, Repr

/-- One task payload, mirroring the dicts produced by create_tasks and sent
to invoke_lambda (keys: product_arn, start_date, last_date, last_event_date). -/
structure TaskParam where
  product_arn : String
  start_date : Int
  last_date : Int
  last_event_date : Int
deriving DecidableEq, Repr

/-- FINDING_WINDOW_OFFSET = 5 (line 12 of the source). -/
def FINDING_WINDOW_OFFSET : Int := 5

/-- ALLOWED_LOCKED_STATE_DAYS_THRESHOLD = 1 (line 15 of the source). -/
def ALLOWED_LOCKED_STATE_DAYS_THRESHOLD : Int := 1

/-- Milliseconds per minute, used to model timedelta(minutes=n). -/
def msPerMinute : Int := 60000

/-- Milliseconds per day, used to model timedelta.days truncation. -/
def msPerDay : Int := 86400000

/-- addminutes: date_obj + timedelta(minutes=num_minutes), as milliseconds. -/
def addminutes (date_obj : Int) (num_minutes : Int) : Int :=
  date_obj + num_minutes * msPerMinute

/-- addmilliseconds: date_obj + timedelta(milliseconds=num_millisecs). -/
def addmilliseconds (date_obj : Int) (num_millisecs : Int) : Int :=
  date_obj + num_millisecs

/-- get_default_datetime: datetime.fromtimestamp(0, timezone.utc), the Unix
epoch, which is 0 in the millisecond encoding. -/
def get_default_datetime : Int := 0

/-- is_lock_old: the Python timedelta field days is the floor of the total
duration divided by one day, so the test time_after_lock.days >= 1 becomes a
floor division (Int.fdiv) on the millisecond difference. -/
def is_lock_old (now : Int) (last_locked_date : Int) : Bool :=
  decide (ALLOWED_LOCKED_STATE_DAYS_THRESHOLD ≤ (now - last_locked_date).fdiv msPerDay)

/-- Lookup in the model of the Python dict existing_product_arn_map. -/
def dictGet (m : List (String × Row)) (k : String) : Option Row :=
  match m with
  | [] => none
  | (k2, v) :: rest => if k2 = k then some v else dictGet rest k

/-- Insertion into the model of the Python dict: replaces the entry with the
same key if present (as assignment to a dict key does), appends otherwise. -/
def dictInsert (m : List (String × Row)) (k : String) (v : Row) : List (String × Row) :=
  match m with
  | [] => [(k, v)]
  | (k2, v2) :: rest => if k2 = k then (k, v) :: rest else (k2, v2) :: dictInsert rest k v

/-- existing_product_arn_map = the dict comprehension on line 210: each item
is assigned under its product_arn key, later duplicates overwriting earlier. -/
def buildMap (existing_rows : List Row) : List (String × Row) :=
  existing_rows.foldl (fun m item => dictInsert m item.product_arn item) []

/-- State of the get_rows loop: the (mutable) dict plus the three result
lists existing_unlocked_rows, existing_old_locked_rows, non_existing_rows. -/
structure SchedState where
  map : List (String × Row)
  unlocked : List Row
  oldLocked : List Row
  nonExisting : List Row
deriving DecidableEq, Repr

/-- One iteration of the loop over active_product_arns in get_rows
(lines 214-229).  Releasing a stale lock mutates the row object that the dict
holds (line 220), modelled by updating the dict entry alongside appending the
released row. -/
def processArn (now : Int) (s : SchedState) (arn : String) : SchedState :=
  match dictGet s.map arn with
  | some row =>
      if row.is_locked = 0 then
        { s with unlocked := s.unlocked ++ [row] }
      else if is_lock_old now row.last_locked_date then
        { s with
            map := dictInsert s.map arn { row with is_locked := 0 },
            oldLocked := s.oldLocked ++ [{ row with is_locked := 0 }] }
      else
        s
  | none =>
      { s with nonExisting := s.nonExisting ++ [{
          product_arn := arn,
          is_locked := 0,
          last_locked_date := get_default_datetime,
          last_event_date := get_default_datetime }] }

/-- Initial loop state of get_rows: the freshly built dict and empty lists. -/
def initState (existing_rows : List Row) : SchedState :=
  { map := buildMap existing_rows, unlocked := [], oldLocked := [], nonExisting := [] }

/-- The full loop of get_rows as a fold over active_product_arns. -/
def runFold (now : Int) (active_product_arns : List String) (existing_rows : List Row) : SchedState :=
  List.foldl (processArn now) (initState existing_rows) active_product_arns

/-- get_rows (lines 209-232): returns the triple
(existing_unlocked_rows, existing_old_locked_rows, non_existing_rows). -/
def get_rows (now : Int) (active_product_arns : List String) (existing_rows : List Row) :
    List Row × List Row × List Row :=
  let final := runFold now active_product_arns existing_rows
  (final.unlocked, final.oldLocked, final.nonExisting)

/-- create_tasks (lines 235-244): one task per input row, start_date is the
last_event_date of the row plus one millisecond, last_date is the current
time plus FINDING_WINDOW_OFFSET minutes, last_event_date passes through. -/
def create_tasks (now : Int) (unlocked_rows : List Row) : List TaskParam :=
  unlocked_rows.map (fun row =>
    { product_arn := row.product_arn,
      start_date := addmilliseconds row.last_event_date 1,
      last_date := addminutes now FINDING_WINDOW_OFFSET,
      last_event_date := row.last_event_date })

/-- The rows of a list that carry a given product_arn. -/
def rowsFor (arn : String) (l : List Row) : List Row :=
  l.filter (fun r => r.product_arn == arn)

/-- The tasks of a list that carry a given product_arn. -/
def tasksFor (arn : String) (l : List TaskParam) : List TaskParam :=
  l.filter (fun t => t.product_arn == arn)

/-- The contents of the existing_rows argument after a get_rows call.
get_rows mutates rows in place: line 220 assigns is_locked = 0 on the dict
entry, and the dict entry for a key is the same object as the (last) list
item with that key.  For a list whose rows have pairwise distinct
product_arn keys each list item is exactly the dict entry for its key, so
the post-call item is the final dict entry for its key when present. -/
def post_call_rows (now : Int) (active_product_arns : List String) (existing_rows : List Row) :
    List Row :=
  let m := (runFold now active_product_arns existing_rows).map
  existing_rows.map (fun r => (dictGet m r.product_arn).getD r)

/-- Outcome of collecting one dispatch future in trigger_lambdas
(lines 266-273): an exception is caught and logged with the product arn,
a normal result is logged with its HTTP status code. -/
inductive InvokeOutcome where
  | success (product_arn : String) (statusCode : Int)
  | failure (product_arn : String) (err : String)
deriving DecidableEq, Repr

/-- The outcome recorded for a single task: invoke_lambda is modelled as a
fallible call returning Except, and the try/except around future.result
turns an error into a logged failure instead of propagating it. -/
def collectOutcome (invoke : TaskParam → Except String Int) (t : TaskParam) : InvokeOutcome :=
  match invoke t with
  | Except.ok status => InvokeOutcome.success t.product_arn status
  | Except.error e => InvokeOutcome.failure t.product_arn e

/-- Collection of all dispatch outcomes of a batch (lines 264-273).  The
futures complete in nondeterministic order; since no component depends on
the order, outcomes are listed in submission order. -/
def collect_results (invoke : TaskParam → Except String Int) (tasks : List TaskParam) : List InvokeOutcome :=
  tasks.map (collectOutcome invoke)

/-- Observable steps of one scheduling cycle. -/
inductive CycleEvent where
  | fetchDirectory (arns : List String)
  | fetchLocks (rows : List Row)
  | reconcile
  | buildTasks (tasks : List TaskParam)
  | persist (rows : List Row)
  | dispatch (t : TaskParam)
deriving DecidableEq, Repr

/-- Event trace of one cycle of trigger_lambdas (lines 256-265) for the
single page yielded by generate_fixed_product_arns: batch_get_items_bypk
(fetchLocks, line 260), get_rows (reconcile, line 261), create_tasks on
existing_unlocked_rows + non_existing_rows (buildTasks, line 262),
batch_insert_rows on non_existing_rows + existing_old_locked_rows (persist,
line 263), then one executor.submit per task (dispatch, line 264). -/
def trigger_lambdas_trace (now : Int) (active : List String) (existing : List Row) :
    List CycleEvent :=
  let rows := get_rows now active existing
  let tasks := create_tasks now (rows.1 ++ rows.2.2)
  [CycleEvent.fetchDirectory active,
   CycleEvent.fetchLocks existing,
   CycleEvent.reconcile,
   CycleEvent.buildTasks tasks,
   CycleEvent.persist (rows.2.2 ++ rows.2.1)]
  ++ tasks.map CycleEvent.dispatch

/-- Recognizer for buildTasks events. -/
def isBuild : CycleEvent → Bool
  | CycleEvent.buildTasks _ => true
  | _ => false

/-- Recognizer for persist events. -/
def isPersist : CycleEvent → Bool
  | CycleEvent.persist _ => true
  | _ => false

/-- Recognizer for dispatch events. -/
def isDispatch : CycleEvent → Bool
  | CycleEvent.dispatch _ => true
  | _ => false

/-- Dispatch function used in concrete dispatch-isolation scenarios: the
invocation for provider B fails deterministically, all others succeed. -/
def cexInvoke : TaskParam → Except String Int :=
  fun t => if t.product_arn = "B" then Except.error "boom" else Except.ok 202

/-- Lock row used in concrete scenarios: locked at the epoch. -/
def cexStaleRow : Row :=
  { product_arn := "p", is_locked := 1, last_locked_date := 0, last_event_date := 0 }

/-- Three eligible tasks A, B, C used in the concrete dispatch-isolation
scenario together with cexInvoke, which fails exactly on B. -/
def cexTasks : List TaskParam :=
  [{ product_arn := "A", start_date := 1, last_date := 2, last_event_date := 0 },
   { product_arn := "B", start_date := 1, last_date := 2, last_event_date := 0 },
   { product_arn := "C", start_date := 1, last_date := 2, last_event_date := 0 }]

/-- Invariant of the dict: every entry is stored under its own product_arn. -/
def MapInv (m : List (String × Row)) : Prop :=
  ∀ p ∈ m, (p.2).product_arn = p.1

theorem mapInv_nil : MapInv [] := by
  intro p hp
  cases hp

theorem rowsFor_append_ne (a : String) (l : List Row) (r : Row) (h : r.product_arn ≠ a) :
    rowsFor a (l ++ [r]) = rowsFor a l := by
  simp [rowsFor, List.filter_append, h]

theorem rowsFor_append_self (a : String) (l : List Row) (r : Row) (h : r.product_arn = a) :
    rowsFor a (l ++ [r]) = rowsFor a l ++ [r] := by
  simp [rowsFor, List.filter_append, h]

theorem rowsFor_eq_nil {a : String} {l : List Row} (h : rowsFor a l = []) :
    ∀ r ∈ l, r.product_arn ≠ a := by
  intro r hr
  have := List.filter_eq_nil_iff.mp h r hr
  simpa using this

theorem mem_of_rowsFor_singleton {a : String} {l : List Row} {r : Row}
    (h : rowsFor a l = [r]) : r ∈ l :=
  List.mem_of_mem_filter (l := l) (h ▸ List.mem_singleton_self r)

theorem dictGet_mem {m : List (String × Row)} {k : String} {r : Row}
    (h : dictGet m k = some r) : (k, r) ∈ m := by
  induction m with
  | nil => simp [dictGet] at h
  | cons p rest ih =>
    obtain ⟨k2, v⟩ := p
    by_cases hk : k2 = k
    · subst hk
      simp [dictGet] at h
      subst h
      exact List.mem_cons_self _ _
    · simp [dictGet, hk] at h
      exact List.mem_cons_of_mem _ (ih h)

theorem mapInv_arn {m : List (String × Row)} {k : String} {r : Row}
    (hinv : MapInv m) (h : dictGet m k = some r) : r.product_arn = k :=
  hinv (k, r) (dictGet_mem h)

theorem dictGet_dictInsert_self (m : List (String × Row)) (k : String) (v : Row) :
    dictGet (dictInsert m k v) k = some v := by
  induction m with
  | nil => simp [dictInsert, dictGet]
  | cons p rest ih =>
    obtain ⟨k2, v2⟩ := p
    by_cases hk : k2 = k
    · simp [dictInsert, hk, dictGet]
    · simp [dictInsert, hk, dictGet, ih]

theorem dictGet_dictInsert_ne (m : List (String × Row)) (k a : String) (v : Row)
    (h : k ≠ a) : dictGet (dictInsert m k v) a = dictGet m a := by
  induction m with
  | nil => simp [dictInsert, dictGet, h]
  | cons p rest ih =>
    obtain ⟨k2, v2⟩ := p
    by_cases hk : k2 = k
    · subst hk
      simp [dictInsert, dictGet, h]
    · by_cases ha : k2 = a
      · simp [dictInsert, hk, dictGet, ha, Ne.symm h]
      · simp [dictInsert, hk, dictGet, ha, ih]

theorem mapInv_insert {m : List (String × Row)} {k : String} {v : Row}
    (hinv : MapInv m) (hv : v.product_arn = k) : MapInv (dictInsert m k v) := by
  induction m with
  | nil =>
    intro p hp
    simp [dictInsert] at hp
    subst hp
    simpa using hv
  | cons q rest ih =>
    obtain ⟨k2, v2⟩ := q
    have hhead : v2.product_arn = k2 := hinv (k2, v2) (List.mem_cons_self _ _)
    have htail : MapInv rest := fun p hp => hinv p (List.mem_cons_of_mem _ hp)
    by_cases hk : k2 = k
    · subst hk
      intro p hp
      simp [dictInsert] at hp
      rcases hp with hp | hp
      · subst hp; simpa using hv
      · exact hinv p (List.mem_cons_of_mem _ hp)
    · intro p hp
      simp [dictInsert, hk] at hp
      rcases hp with hp | hp
      · subst hp; simpa using hhead
      · exact ih htail p hp

theorem buildMap_inv (l : List Row) : MapInv (buildMap l) := by
  have aux : ∀ (l2 : List Row) (m : List (String × Row)), MapInv m →
      MapInv (List.foldl (fun m item => dictInsert m item.product_arn item) m l2) := by
    intro l2
    induction l2 with
    | nil => intro m hm; simpa using hm
    | cons r rest ih => intro m hm; exact ih _ (mapInv_insert hm rfl)
  exact aux l [] mapInv_nil

theorem processArn_eq_none (now : Int) (s : SchedState) (b : String)
    (hg : dictGet s.map b = none) :
    processArn now s b = { s with nonExisting := s.nonExisting ++ [{
      product_arn := b, is_locked := 0, last_locked_date := get_default_datetime,
      last_event_date := get_default_datetime }] } := by
  simp [processArn, hg]

theorem processArn_eq_unlocked (now : Int) (s : SchedState) (b : String) (row : Row)
    (hg : dictGet s.map b = some row) (hl : row.is_locked = 0) :
    processArn now s b = { s with unlocked := s.unlocked ++ [row] } := by
  simp [processArn, hg, hl]

theorem processArn_eq_stale (now : Int) (s : SchedState) (b : String) (row : Row)
    (hg : dictGet s.map b = some row) (hl : ¬ row.is_locked = 0)
    (ho : is_lock_old now row.last_locked_date = true) :
    processArn now s b = { s with
      map := dictInsert s.map b { row with is_locked := 0 },
      oldLocked := s.oldLocked ++ [{ row with is_locked := 0 }] } := by
  simp [processArn, hg, hl, ho]

theorem processArn_eq_fresh (now : Int) (s : SchedState) (b : String) (row : Row)
    (hg : dictGet s.map b = some row) (hl : ¬ row.is_locked = 0)
    (ho : is_lock_old now row.last_locked_date = false) :
    processArn now s b = s := by
  simp [processArn, hg, hl, ho]

theorem processArn_inv (now : Int) (s : SchedState) (b : String)
    (h : MapInv s.map) : MapInv (processArn now s b).map := by
  cases hg : dictGet s.map b with
  | none => rw [processArn_eq_none now s b hg]; exact h
  | some row =>
    by_cases hl : row.is_locked = 0
    · rw [processArn_eq_unlocked now s b row hg hl]; exact h
    · cases ho : is_lock_old now row.last_locked_date
      · rw [processArn_eq_fresh now s b row hg hl ho]; exact h
      · rw [processArn_eq_stale now s b row hg hl ho]
        exact mapInv_insert h (by simpa using mapInv_arn h hg)

theorem processArn_frame (now : Int) (s : SchedState) {b a : String}
    (hba : b ≠ a) (hinv : MapInv s.map) :
    dictGet (processArn now s b).map a = dictGet s.map a ∧
    rowsFor a (processArn now s b).unlocked = rowsFor a s.unlocked ∧
    rowsFor a (processArn now s b).oldLocked = rowsFor a s.oldLocked ∧
    rowsFor a (processArn now s b).nonExisting = rowsFor a s.nonExisting := by
  cases hg : dictGet s.map b with
  | none =>
    rw [processArn_eq_none now s b hg]
    exact ⟨rfl, rfl, rfl, rowsFor_append_ne _ _ _ (by simpa using hba)⟩
  | some row =>
    have harn : row.product_arn = b := mapInv_arn hinv hg
    by_cases hl : row.is_locked = 0
    · rw [processArn_eq_unlocked now s b row hg hl]
      exact ⟨rfl, rowsFor_append_ne _ _ _ (by rw [harn]; exact hba), rfl, rfl⟩
    · cases ho : is_lock_old now row.last_locked_date
      · rw [processArn_eq_fresh now s b row hg hl ho]
        exact ⟨rfl, rfl, rfl, rfl⟩
      · rw [processArn_eq_stale now s b row hg hl ho]
        refine ⟨dictGet_dictInsert_ne _ _ _ _ hba, rfl, rowsFor_append_ne _ _ _ ?_, rfl⟩
        simpa [harn] using hba

theorem foldl_inv (now : Int) (l : List String) :
    ∀ s : SchedState, MapInv s.map → MapInv (List.foldl (processArn now) s l).map := by
  induction l with
  | nil => intro s h; exact h
  | cons b rest ih => intro s h; exact ih _ (processArn_inv now s b h)

theorem foldl_frame (now : Int) (l : List String) (a : String) (ha : a ∉ l) :
    ∀ s : SchedState, MapInv s.map →
    dictGet (List.foldl (processArn now) s l).map a = dictGet s.map a ∧
    rowsFor a (List.foldl (processArn now) s l).unlocked = rowsFor a s.unlocked ∧
    rowsFor a (List.foldl (processArn now) s l).oldLocked = rowsFor a s.oldLocked ∧
    rowsFor a (List.foldl (processArn now) s l).nonExisting = rowsFor a s.nonExisting := by
  induction l with
  | nil => intro s _; exact ⟨rfl, rfl, rfl, rfl⟩
  | cons b rest ih =>
    intro s h
    have hba : b ≠ a := fun e => ha (e ▸ List.mem_cons_self b rest)
    have hrest : a ∉ rest := fun e => ha (List.mem_cons_of_mem _ e)
    have h1 := processArn_frame now s hba h
    have h2 := ih hrest (processArn now s b) (processArn_inv now s b h)
    rw [List.foldl_cons]
    exact ⟨h2.1.trans h1.1, h2.2.1.trans h1.2.1, h2.2.2.1.trans h1.2.2.1,
      h2.2.2.2.trans h1.2.2.2⟩

theorem runFold_classify (now : Int) (a : String) (active : List String)
    (existing : List Row) (ha : a ∈ active) (hnd : active.Nodup) :
    (dictGet (buildMap existing) a = none →
      rowsFor a (runFold now active existing).unlocked = [] ∧
      rowsFor a (runFold now active existing).oldLocked = [] ∧
      rowsFor a (runFold now active existing).nonExisting = [{
        product_arn := a, is_locked := 0, last_locked_date := get_default_datetime,
        last_event_date := get_default_datetime }]) ∧
    (∀ row : Row, dictGet (buildMap existing) a = some row → row.is_locked = 0 →
      rowsFor a (runFold now active existing).unlocked = [row] ∧
      rowsFor a (runFold now active existing).oldLocked = [] ∧
      rowsFor a (runFold now active existing).nonExisting = []) ∧
    (∀ row : Row, dictGet (buildMap existing) a = some row → ¬ row.is_locked = 0 →
      is_lock_old now row.last_locked_date = true →
      rowsFor a (runFold now active existing).unlocked = [] ∧
      rowsFor a (runFold now active existing).oldLocked = [{ row with is_locked := 0 }] ∧
      rowsFor a (runFold now active existing).nonExisting = []) ∧
    (∀ row : Row, dictGet (buildMap existing) a = some row → ¬ row.is_locked = 0 →
      is_lock_old now row.last_locked_date = false →
      rowsFor a (runFold now active existing).unlocked = [] ∧
      rowsFor a (runFold now active existing).oldLocked = [] ∧
      rowsFor a (runFold now active existing).nonExisting = [] ∧
      dictGet (runFold now active existing).map a = some row) := by
  obtain ⟨l1, l2, heq⟩ := List.append_of_mem ha
  subst heq
  rw [List.nodup_append] at hnd
  have ha1 : a ∉ l1 := fun hm => (List.disjoint_left.mp hnd.2.2 hm) (List.mem_cons_self a l2)
  have ha2 : a ∉ l2 := (List.nodup_cons.mp hnd.2.1).1
  have hs0 : MapInv (initState existing).map := buildMap_inv existing
  have hfold : runFold now (l1 ++ a :: l2) existing =
      List.foldl (processArn now)
        (processArn now (List.foldl (processArn now) (initState existing) l1) a) l2 := by
    unfold runFold
    rw [List.foldl_append, List.foldl_cons]
  have frame1 := foldl_frame now l1 a ha1 (initState existing) hs0
  have hs1 : MapInv (List.foldl (processArn now) (initState existing) l1).map :=
    foldl_inv now l1 (initState existing) hs0
  have hget1 : dictGet (List.foldl (processArn now) (initState existing) l1).map a =
      dictGet (buildMap existing) a := frame1.1
  have hu1 : rowsFor a (List.foldl (processArn now) (initState existing) l1).unlocked = [] :=
    frame1.2.1
  have ho1 : rowsFor a (List.foldl (processArn now) (initState existing) l1).oldLocked = [] :=
    frame1.2.2.1
  have hn1 : rowsFor a (List.foldl (processArn now) (initState existing) l1).nonExisting = [] :=
    frame1.2.2.2
  refine ⟨?_, ?_, ?_, ?_⟩
  · intro hnone
    have hg : dictGet (List.foldl (processArn now) (initState existing) l1).map a = none :=
      hget1.trans hnone
    rw [hfold]
    have hstep := processArn_eq_none now (List.foldl (processArn now) (initState existing) l1) a hg
    have frame2 := foldl_frame now l2 a ha2 _
      (processArn_inv now (List.foldl (processArn now) (initState existing) l1) a hs1)
    rw [hstep] at frame2 ⊢
    refine ⟨frame2.2.1.trans hu1, frame2.2.2.1.trans ho1, frame2.2.2.2.trans ?_⟩
    rw [rowsFor_append_self a _ _ rfl, hn1, List.nil_append]
  · intro row hrow hl
    have hg : dictGet (List.foldl (processArn now) (initState existing) l1).map a = some row :=
      hget1.trans hrow
    have harn : row.product_arn = a := mapInv_arn hs1 hg
    rw [hfold]
    have hstep := processArn_eq_unlocked now
      (List.foldl (processArn now) (initState existing) l1) a row hg hl
    have frame2 := foldl_frame now l2 a ha2 _
      (processArn_inv now (List.foldl (processArn now) (initState existing) l1) a hs1)
    rw [hstep] at frame2 ⊢
    refine ⟨frame2.2.1.trans ?_, frame2.2.2.1.trans ho1, frame2.2.2.2.trans hn1⟩
    rw [rowsFor_append_self a _ _ harn, hu1, List.nil_append]
  · intro row hrow hl hstale
    have hg : dictGet (List.foldl (processArn now) (initState existing) l1).map a = some row :=
      hget1.trans hrow
    have harn : row.product_arn = a := mapInv_arn hs1 hg
    rw [hfold]
    have hstep := processArn_eq_stale now
      (List.foldl (processArn now) (initState existing) l1) a row hg hl hstale
    have frame2 := foldl_frame now l2 a ha2 _
      (processArn_inv now (List.foldl (processArn now) (initState existing) l1) a hs1)
    rw [hstep] at frame2 ⊢
    refine ⟨frame2.2.1.trans hu1, frame2.2.2.1.trans ?_, frame2.2.2.2.trans hn1⟩
    rw [rowsFor_append_self a _ _ (by simpa using harn), ho1, List.nil_append]
  · intro row hrow hl hfresh
    have hg : dictGet (List.foldl (processArn now) (initState existing) l1).map a = some row :=
      hget1.trans hrow
    rw [hfold]
    have hstep := processArn_eq_fresh now
      (List.foldl (processArn now) (initState existing) l1) a row hg hl hfresh
    have frame2 := foldl_frame now l2 a ha2 _
      (processArn_inv now (List.foldl (processArn now) (initState existing) l1) a hs1)
    rw [hstep] at frame2 ⊢
    exact ⟨frame2.2.1.trans hu1, frame2.2.2.1.trans ho1, frame2.2.2.2.trans hn1,
      frame2.1.trans hg⟩

theorem processArn_oldLocked_map (now : Int) (s : SchedState) (b : String) :
    s.oldLocked.length ≤ (processArn now s b).oldLocked.length ∧
    ((processArn now s b).oldLocked.length = s.oldLocked.length →
      (processArn now s b).map = s.map) := by
  cases hg : dictGet s.map b with
  | none => rw [processArn_eq_none now s b hg]; exact ⟨le_rfl, fun _ => rfl⟩
  | some row =>
    by_cases hl : row.is_locked = 0
    · rw [processArn_eq_unlocked now s b row hg hl]; exact ⟨le_rfl, fun _ => rfl⟩
    · cases ho : is_lock_old now row.last_locked_date
      · rw [processArn_eq_fresh now s b row hg hl ho]; exact ⟨le_rfl, fun _ => rfl⟩
      · rw [processArn_eq_stale now s b row hg hl ho]
        constructor
        · simp
        · intro h
          simp at h

theorem foldl_oldLocked_mono (now : Int) (l : List String) :
    ∀ s : SchedState,
    s.oldLocked.length ≤ (List.foldl (processArn now) s l).oldLocked.length := by
  induction l with
  | nil => intro s; exact le_rfl
  | cons b rest ih =>
    intro s
    exact le_trans (processArn_oldLocked_map now s b).1 (ih (processArn now s b))

theorem foldl_map_of_no_repair (now : Int) (l : List String) :
    ∀ s : SchedState,
    (List.foldl (processArn now) s l).oldLocked.length = s.oldLocked.length →
    (List.foldl (processArn now) s l).map = s.map := by
  induction l with
  | nil => intro s _; rfl
  | cons b rest ih =>
    intro s h
    rw [List.foldl_cons] at h ⊢
    have m1 := (processArn_oldLocked_map now s b).1
    have m2 := foldl_oldLocked_mono now rest (processArn now s b)
    have h1 : (processArn now s b).oldLocked.length = s.oldLocked.length := by omega
    have h2 : (List.foldl (processArn now) (processArn now s b) rest).oldLocked.length =
        (processArn now s b).oldLocked.length := by omega
    rw [ih (processArn now s b) h2]
    exact (processArn_oldLocked_map now s b).2 h1

theorem dictGet_foldInsert_ne (l : List Row) (k : String) :
    ∀ m : List (String × Row), (∀ r ∈ l, r.product_arn ≠ k) →
    dictGet (List.foldl (fun m item => dictInsert m item.product_arn item) m l) k =
      dictGet m k := by
  induction l with
  | nil => intro m _; rfl
  | cons r rest ih =>
    intro m hl
    rw [List.foldl_cons]
    rw [ih _ (fun x hx => hl x (List.mem_cons_of_mem _ hx))]
    exact dictGet_dictInsert_ne _ _ _ _ (hl r (List.mem_cons_self r rest))

theorem buildMap_self {existing : List Row}
    (hkeys : existing.Pairwise (fun r1 r2 => r1.product_arn ≠ r2.product_arn)) :
    ∀ r ∈ existing, dictGet (buildMap existing) r.product_arn = some r := by
  intro r hr
  obtain ⟨l1, l2, heq⟩ := List.append_of_mem hr
  subst heq
  rw [List.pairwise_append] at hkeys
  have hl2 : ∀ x ∈ l2, x.product_arn ≠ r.product_arn := by
    intro x hx e
    exact (List.pairwise_cons.mp hkeys.2.1).1 x hx e.symm
  unfold buildMap
  rw [List.foldl_append, List.foldl_cons]
  rw [dictGet_foldInsert_ne l2 _ _ hl2]
  exact dictGet_dictInsert_self _ _ _

theorem tasksFor_create_tasks (now : Int) (a : String) (rows : List Row) :
    tasksFor a (create_tasks now rows) = create_tasks now (rowsFor a rows) := by
  unfold tasksFor create_tasks rowsFor
  rw [List.filter_map]
  rfl

theorem create_tasks_arn {now : Int} {rows : List Row} {t : TaskParam}
    (ht : t ∈ create_tasks now rows) : ∃ r ∈ rows, t.product_arn = r.product_arn := by
  unfold create_tasks at ht
  obtain ⟨r, hr, he⟩ := List.mem_map.mp ht
  exact ⟨r, hr, by rw [← he]⟩

theorem rowsFor_append (a : String) (l1 l2 : List Row) :
    rowsFor a (l1 ++ l2) = rowsFor a l1 ++ rowsFor a l2 := by
  simp [rowsFor, List.filter_append]

/-- Claim C1: an active provider whose existing lock row is locked and whose
lock is at least the 1-day stale threshold old is emitted as a repaired row
with is_locked set to 0 and last_locked_date and last_event_date unchanged,
and no task is built for it in the same cycle, since tasks are built only
from the unlocked and new rows (line 262). -/
theorem stale_lock_repaired_no_task (now : Int) (a : String) (active : List String)
    (existing : List Row) (r : Row) (ha : a ∈ active) (hnd : active.Nodup)
    (hget : dictGet (buildMap existing) a = some r) (hlocked : ¬ r.is_locked = 0)
    (hstale : is_lock_old now r.last_locked_date = true) :
    ({ product_arn := a, is_locked := 0, last_locked_date := r.last_locked_date,
       last_event_date := r.last_event_date } : Row) ∈ (get_rows now active existing).2.1 ∧
    tasksFor a (create_tasks now
      ((get_rows now active existing).1 ++ (get_rows now active existing).2.2)) = [] := by
  have hcls := (runFold_classify now a active existing ha hnd).2.2.1 r hget hlocked hstale
  have harn : r.product_arn = a := mapInv_arn (buildMap_inv existing) hget
  constructor
  · obtain ⟨pa, il, lld, led⟩ := r
    have harn2 : pa = a := harn
    subst harn2
    exact mem_of_rowsFor_singleton hcls.2.1
  · rw [tasksFor_create_tasks]
    show create_tasks now (rowsFor a
      ((runFold now active existing).unlocked ++ (runFold now active existing).nonExisting)) = []
    rw [rowsFor_append, hcls.1, hcls.2.2]
    rfl

theorem stale_lock_repaired_no_task_witness :
    ({ product_arn := "p", is_locked := 0, last_locked_date := 0,
       last_event_date := 7 } : Row) ∈
      (get_rows 86400000 ["p"] [{ product_arn := "p", is_locked := 1, last_locked_date := 0, last_event_date := 7 }]).2.1 :=
  (stale_lock_repaired_no_task 86400000 "p" ["p"]
    [{ product_arn := "p", is_locked := 1, last_locked_date := 0, last_event_date := 7 }]
    { product_arn := "p", is_locked := 1, last_locked_date := 0, last_event_date := 7 }
    (by decide) (by decide) (by decide) (by decide) (by decide)).1

/-- Claim C2: the task built from a row has start_date equal to the row
last_event_date plus exactly one millisecond, last_date equal to the current
time plus the 5-minute window offset, and last_event_date passed through
unchanged. -/
theorem create_tasks_window (now : Int) (rows : List Row) (r : Row) (i : Nat)
    (h : rows[i]? = some r) :
    (create_tasks now rows)[i]? = some
      { product_arn := r.product_arn,
        start_date := addmilliseconds r.last_event_date 1,
        last_date := addminutes now FINDING_WINDOW_OFFSET,
        last_event_date := r.last_event_date } ∧
    addmilliseconds r.last_event_date 1 = r.last_event_date + 1 ∧
    addminutes now FINDING_WINDOW_OFFSET = now + 5 * msPerMinute := by
  refine ⟨?_, rfl, rfl⟩
  unfold create_tasks
  rw [List.getElem?_map _ rows i, h]
  rfl

theorem create_tasks_window_witness :
    (create_tasks 100 [{ product_arn := "p", is_locked := 0, last_locked_date := 5, last_event_date := 7 }])[0]? =
      some { product_arn := "p", start_date := addmilliseconds 7 1, last_date := addminutes 100 FINDING_WINDOW_OFFSET, last_event_date := 7 } :=
  (create_tasks_window 100
    [{ product_arn := "p", is_locked := 0, last_locked_date := 5, last_event_date := 7 }]
    { product_arn := "p", is_locked := 0, last_locked_date := 5, last_event_date := 7 }
    0 (by decide)).1

/-- Claim C3: an active provider with no existing lock row is emitted as a
new row with is_locked 0 and both dates equal to the epoch-zero default, and
the task built for it this cycle has start_date equal to epoch zero plus one
millisecond. -/
theorem new_provider_initialized (now : Int) (a : String) (active : List String)
    (existing : List Row) (ha : a ∈ active) (hnd : active.Nodup)
    (hget : dictGet (buildMap existing) a = none) :
    ({ product_arn := a, is_locked := 0, last_locked_date := get_default_datetime,
       last_event_date := get_default_datetime } : Row) ∈ (get_rows now active existing).2.2 ∧
    tasksFor a (create_tasks now
      ((get_rows now active existing).1 ++ (get_rows now active existing).2.2)) =
      [{ product_arn := a, start_date := addmilliseconds get_default_datetime 1,
         last_date := addminutes now FINDING_WINDOW_OFFSET,
         last_event_date := get_default_datetime }] ∧
    addmilliseconds get_default_datetime 1 = 1 := by
  have hcls := (runFold_classify now a active existing ha hnd).1 hget
  refine ⟨mem_of_rowsFor_singleton hcls.2.2, ?_, rfl⟩
  rw [tasksFor_create_tasks]
  show create_tasks now (rowsFor a
    ((runFold now active existing).unlocked ++ (runFold now active existing).nonExisting)) = _
  rw [rowsFor_append, hcls.1, hcls.2.2]
  rfl

theorem new_provider_initialized_witness :
    ({ product_arn := "q", is_locked := 0, last_locked_date := get_default_datetime,
       last_event_date := get_default_datetime } : Row) ∈ (get_rows 50 ["q"] []).2.2 :=
  (new_provider_initialized 50 "q" ["q"] [] (by decide) (by decide) (by decide)).1

/-- Claim C4: an active provider whose existing row is locked with a lock
younger than the stale threshold appears in none of the three output lists,
gets no task, is not in the batch persisted on line 263, and its dict entry
is left unchanged. -/
theorem fresh_lock_skipped (now : Int) (a : String) (active : List String)
    (existing : List Row) (r : Row) (ha : a ∈ active) (hnd : active.Nodup)
    (hget : dictGet (buildMap existing) a = some r) (hlocked : ¬ r.is_locked = 0)
    (hfresh : is_lock_old now r.last_locked_date = false) :
    rowsFor a (get_rows now active existing).1 = [] ∧
    rowsFor a (get_rows now active existing).2.1 = [] ∧
    rowsFor a (get_rows now active existing).2.2 = [] ∧
    tasksFor a (create_tasks now
      ((get_rows now active existing).1 ++ (get_rows now active existing).2.2)) = [] ∧
    rowsFor a ((get_rows now active existing).2.2 ++ (get_rows now active existing).2.1) = [] ∧
    dictGet (runFold now active existing).map a = some r := by
  have hcls := (runFold_classify now a active existing ha hnd).2.2.2 r hget hlocked hfresh
  refine ⟨hcls.1, hcls.2.1, hcls.2.2.1, ?_, ?_, hcls.2.2.2⟩
  · rw [tasksFor_create_tasks]
    show create_tasks now (rowsFor a
      ((runFold now active existing).unlocked ++ (runFold now active existing).nonExisting)) = []
    rw [rowsFor_append, hcls.1, hcls.2.2.1]
    rfl
  · show rowsFor a
      ((runFold now active existing).nonExisting ++ (runFold now active existing).oldLocked) = []
    rw [rowsFor_append, hcls.2.1, hcls.2.2.1]
    rfl

theorem fresh_lock_skipped_witness :
    rowsFor "p" (get_rows 100 ["p"] [{ product_arn := "p", is_locked := 1, last_locked_date := 0, last_event_date := 7 }]).1 = [] :=
  (fresh_lock_skipped 100 "p" ["p"]
    [{ product_arn := "p", is_locked := 1, last_locked_date := 0, last_event_date := 7 }]
    { product_arn := "p", is_locked := 1, last_locked_date := 0, last_event_date := 7 }
    (by decide) (by decide) (by decide) (by decide) (by decide)).1

/-- Claim C5: the staleness predicate holds exactly when the wall-clock
difference between now and last_locked_date, truncated to whole days, is at
least 1, which is exactly when the difference is at least one full day of
milliseconds; a lock whose age is exactly the 1-day threshold counts as
stale. -/
theorem is_lock_old_characterization (now last_locked_date : Int) :
    (is_lock_old now last_locked_date = true ↔
      1 ≤ (now - last_locked_date).fdiv msPerDay) ∧
    (is_lock_old now last_locked_date = true ↔
      msPerDay ≤ now - last_locked_date) ∧
    (now - last_locked_date = msPerDay → is_lock_old now last_locked_date = true) := by
  have hfd : (now - last_locked_date).fdiv msPerDay = (now - last_locked_date) / msPerDay :=
    Int.fdiv_eq_ediv _ (by norm_num [msPerDay])
  refine ⟨?_, ?_, ?_⟩
  · simp [is_lock_old, ALLOWED_LOCKED_STATE_DAYS_THRESHOLD]
  · simp only [is_lock_old, ALLOWED_LOCKED_STATE_DAYS_THRESHOLD, decide_eq_true_eq, hfd]
    show 1 ≤ (now - last_locked_date) / msPerDay ↔ msPerDay ≤ now - last_locked_date
    simp only [msPerDay]
    omega
  · intro h
    simp only [is_lock_old, ALLOWED_LOCKED_STATE_DAYS_THRESHOLD, decide_eq_true_eq, hfd, h]
    decide

theorem is_lock_old_characterization_witness : is_lock_old 86400000 0 = true :=
  (is_lock_old_characterization 86400000 0).2.2 (by decide)

/-- Claim C6 counterexample: get_rows is not a pure function of the value of
its arguments across two successive calls, because it mutates its
existing_rows argument in place (line 220 releases a stale lock on the shared
row object).  With one stale-locked row, the first call classifies it as
old-locked; the second call, receiving the same now-mutated rows, classifies
it as unlocked, so the classification results differ. -/
theorem reconcile_second_call_differs :
    get_rows msPerDay ["p"] (post_call_rows msPerDay ["p"] [cexStaleRow]) ≠
    get_rows msPerDay ["p"] [cexStaleRow] := by
  decide

/-- Claim C6 amended: when the first call repairs no row (its old-locked
output is empty) and the existing rows are uniquely keyed, the in-place
mutation is vacuous: the argument is unchanged by the call and a second call
with it yields identical classification results. -/
theorem reconcile_pure_when_no_repair (now : Int) (active : List String)
    (existing : List Row)
    (hkeys : existing.Pairwise (fun r1 r2 => r1.product_arn ≠ r2.product_arn))
    (hnorep : (get_rows now active existing).2.1 = []) :
    post_call_rows now active existing = existing ∧
    get_rows now active (post_call_rows now active existing) =
      get_rows now active existing := by
  have hnil : (runFold now active existing).oldLocked = [] := hnorep
  have hlen : (runFold now active existing).oldLocked.length =
      (initState existing).oldLocked.length := by
    rw [hnil]; rfl
  have hmap : (runFold now active existing).map = buildMap existing :=
    foldl_map_of_no_repair now active (initState existing) hlen
  have hpost : post_call_rows now active existing = existing := by
    unfold post_call_rows
    rw [hmap]
    have hid : ∀ r ∈ existing, (dictGet (buildMap existing) r.product_arn).getD r = r := by
      intro r hr
      rw [buildMap_self hkeys r hr]
      rfl
    calc existing.map (fun r => (dictGet (buildMap existing) r.product_arn).getD r)
        = existing.map id := List.map_congr_left hid
      _ = existing := List.map_id existing
  exact ⟨hpost, by rw [hpost]⟩

theorem reconcile_pure_when_no_repair_witness :
    post_call_rows 5 ["p"] [{ product_arn := "p", is_locked := 0, last_locked_date := 1, last_event_date := 2 }] =
      [{ product_arn := "p", is_locked := 0, last_locked_date := 1, last_event_date := 2 }] :=
  (reconcile_pure_when_no_repair 5 ["p"]
    [{ product_arn := "p", is_locked := 0, last_locked_date := 1, last_event_date := 2 }]
    (by simp) (by decide)).1

/-- Claim C8: an existing lock row whose provider id is absent from the
active list is in none of the three output lists, gets no task, does not
appear in the batch persisted on line 263, and its dict entry is unchanged
by the whole loop. -/
theorem inactive_rows_ignored (now : Int) (active : List String) (existing : List Row)
    (r : Row) (_hr : r ∈ existing) (hna : r.product_arn ∉ active) :
    rowsFor r.product_arn (get_rows now active existing).1 = [] ∧
    rowsFor r.product_arn (get_rows now active existing).2.1 = [] ∧
    rowsFor r.product_arn (get_rows now active existing).2.2 = [] ∧
    tasksFor r.product_arn (create_tasks now
      ((get_rows now active existing).1 ++ (get_rows now active existing).2.2)) = [] ∧
    rowsFor r.product_arn
      ((get_rows now active existing).2.2 ++ (get_rows now active existing).2.1) = [] ∧
    dictGet (runFold now active existing).map r.product_arn =
      dictGet (buildMap existing) r.product_arn := by
  have frame := foldl_frame now active r.product_arn hna (initState existing)
    (buildMap_inv existing)
  have h1 : rowsFor r.product_arn (runFold now active existing).unlocked = [] := frame.2.1
  have h2 : rowsFor r.product_arn (runFold now active existing).oldLocked = [] := frame.2.2.1
  have h3 : rowsFor r.product_arn (runFold now active existing).nonExisting = [] := frame.2.2.2
  refine ⟨h1, h2, h3, ?_, ?_, frame.1⟩
  · rw [tasksFor_create_tasks]
    show create_tasks now (rowsFor r.product_arn
      ((runFold now active existing).unlocked ++ (runFold now active existing).nonExisting)) = []
    rw [rowsFor_append, h1, h3]
    rfl
  · show rowsFor r.product_arn
      ((runFold now active existing).nonExisting ++ (runFold now active existing).oldLocked) = []
    rw [rowsFor_append, h2, h3]
    rfl

theorem inactive_rows_ignored_witness :
    rowsFor "z" (get_rows 3 ["p"] [{ product_arn := "z", is_locked := 0, last_locked_date := 1, last_event_date := 2 }]).1 = [] :=
  (inactive_rows_ignored 3 ["p"]
    [{ product_arn := "z", is_locked := 0, last_locked_date := 1, last_event_date := 2 }]
    { product_arn := "z", is_locked := 0, last_locked_date := 1, last_event_date := 2 }
    (by decide) (by decide)).1

/-- Claim C9: the outcome collected for each dispatched task is a function
of that task invocation alone, so a failure of one invocation is recorded as
a logged failure for that provider and does not affect any other outcome,
and collection always completes with one outcome per task, never raising. -/
theorem dispatch_failure_isolated (invoke : TaskParam → Except String Int)
    (tasks : List TaskParam) (i : Nat) (t : TaskParam) (h : tasks[i]? = some t) :
    (collect_results invoke tasks).length = tasks.length ∧
    (collect_results invoke tasks)[i]? = some (collectOutcome invoke t) := by
  constructor
  · simp [collect_results]
  · unfold collect_results
    rw [List.getElem?_map _ tasks i, h]
    rfl

theorem dispatch_failure_isolated_witness :
    (collect_results cexInvoke cexTasks).length = 3 ∧
    (collect_results cexInvoke cexTasks)[0]? = some (InvokeOutcome.success "A" 202) ∧
    (collect_results cexInvoke cexTasks)[1]? = some (InvokeOutcome.failure "B" "boom") ∧
    (collect_results cexInvoke cexTasks)[2]? = some (InvokeOutcome.success "C" 202) := by
  have hA := dispatch_failure_isolated cexInvoke cexTasks 0
    { product_arn := "A", start_date := 1, last_date := 2, last_event_date := 0 } (by decide)
  have hB := dispatch_failure_isolated cexInvoke cexTasks 1
    { product_arn := "B", start_date := 1, last_date := 2, last_event_date := 0 } (by decide)
  have hC := dispatch_failure_isolated cexInvoke cexTasks 2
    { product_arn := "C", start_date := 1, last_date := 2, last_event_date := 0 } (by decide)
  refine ⟨hA.1, ?_, ?_, ?_⟩
  · rw [hA.2]; decide
  · rw [hB.2]; decide
  · rw [hC.2]; decide

/-- Claim C10: for a duplicate-free active list, every product_arn occurs in
the three output lists at most once in total, and the three lists are
pairwise disjoint.  Duplicate-freeness matters: a stale-locked row is
repaired through the mutated dict entry, so a repeated id would find the
released entry and be re-classified as unlocked. -/
theorem reconcile_outputs_disjoint (now : Int) (active : List String)
    (existing : List Row) (hnd : active.Nodup) :
    (∀ a : String,
      (rowsFor a (get_rows now active existing).1).length +
      (rowsFor a (get_rows now active existing).2.1).length +
      (rowsFor a (get_rows now active existing).2.2).length ≤ 1) ∧
    List.Disjoint (get_rows now active existing).1 (get_rows now active existing).2.1 ∧
    List.Disjoint (get_rows now active existing).1 (get_rows now active existing).2.2 ∧
    List.Disjoint (get_rows now active existing).2.1 (get_rows now active existing).2.2 := by
  have key : ∀ a : String,
      (rowsFor a (runFold now active existing).unlocked).length +
      (rowsFor a (runFold now active existing).oldLocked).length +
      (rowsFor a (runFold now active existing).nonExisting).length ≤ 1 := by
    intro a
    by_cases ha : a ∈ active
    · have hcls := runFold_classify now a active existing ha hnd
      cases hg : dictGet (buildMap existing) a with
      | none =>
        have h := hcls.1 hg
        rw [h.1, h.2.1, h.2.2]
        simp
      | some row =>
        by_cases hl : row.is_locked = 0
        · have h := hcls.2.1 row hg hl
          rw [h.1, h.2.1, h.2.2]
          simp
        · cases ho : is_lock_old now row.last_locked_date
          · have h := hcls.2.2.2 row hg hl ho
            rw [h.1, h.2.1, h.2.2.1]
            simp
          · have h := hcls.2.2.1 row hg hl ho
            rw [h.1, h.2.1, h.2.2]
            simp
    · have frame := foldl_frame now active a ha (initState existing) (buildMap_inv existing)
      unfold runFold
      rw [frame.2.1, frame.2.2.1, frame.2.2.2]
      simp [rowsFor, initState]
  have key2 : ∀ a : String,
      (rowsFor a (get_rows now active existing).1).length +
      (rowsFor a (get_rows now active existing).2.1).length +
      (rowsFor a (get_rows now active existing).2.2).length ≤ 1 := key
  have hlen : ∀ (x : Row) (l : List Row), x ∈ l → 1 ≤ (rowsFor x.product_arn l).length := by
    intro x l hx
    have hm : x ∈ rowsFor x.product_arn l := List.mem_filter.mpr ⟨hx, by simp⟩
    have hne : rowsFor x.product_arn l ≠ [] := fun he => by simp [he] at hm
    have := List.length_pos.mpr hne
    omega
  refine ⟨key2, ?_, ?_, ?_⟩
  · intro x hx1 hx2
    have hk := key2 x.product_arn
    have a1 := hlen x _ hx1
    have a2 := hlen x _ hx2
    omega
  · intro x hx1 hx2
    have hk := key2 x.product_arn
    have a1 := hlen x _ hx1
    have a2 := hlen x _ hx2
    omega
  · intro x hx1 hx2
    have hk := key2 x.product_arn
    have a1 := hlen x _ hx1
    have a2 := hlen x _ hx2
    omega

theorem reconcile_outputs_disjoint_witness :
    (rowsFor "p" (get_rows 9 ["p", "q"] [cexStaleRow]).1).length +
    (rowsFor "p" (get_rows 9 ["p", "q"] [cexStaleRow]).2.1).length +
    (rowsFor "p" (get_rows 9 ["p", "q"] [cexStaleRow]).2.2).length ≤ 1 :=
  (reconcile_outputs_disjoint 9 ["p", "q"] [cexStaleRow] (by decide)).1 "p"

theorem trace_event_class (now : Int) (active : List String) (existing : List Row)
    (i : Nat) (e : CycleEvent)
    (he : (trigger_lambdas_trace now active existing)[i]? = some e) :
    (isBuild e = true → i = 3) ∧ (isPersist e = true → i = 4) ∧
    (isDispatch e = true → 5 ≤ i) := by
  simp only [trigger_lambdas_trace, List.cons_append, List.nil_append] at he
  rcases i with _|_|_|_|_|n
  · rw [List.getElem?_cons_zero, Option.some_inj] at he
    subst he
    exact ⟨by simp [isBuild], by simp [isPersist], by simp [isDispatch]⟩
  · rw [List.getElem?_cons_succ, List.getElem?_cons_zero, Option.some_inj] at he
    subst he
    exact ⟨by simp [isBuild], by simp [isPersist], by simp [isDispatch]⟩
  · rw [List.getElem?_cons_succ, List.getElem?_cons_succ, List.getElem?_cons_zero,
      Option.some_inj] at he
    subst he
    exact ⟨by simp [isBuild], by simp [isPersist], by simp [isDispatch]⟩
  · rw [List.getElem?_cons_succ, List.getElem?_cons_succ, List.getElem?_cons_succ,
      List.getElem?_cons_zero, Option.some_inj] at he
    subst he
    exact ⟨by simp [isBuild], by simp [isPersist], by simp [isDispatch]⟩
  · rw [List.getElem?_cons_succ, List.getElem?_cons_succ, List.getElem?_cons_succ,
      List.getElem?_cons_succ, List.getElem?_cons_zero, Option.some_inj] at he
    subst he
    exact ⟨by simp [isBuild], by simp [isPersist], by simp [isDispatch]⟩
  · rw [List.getElem?_cons_succ, List.getElem?_cons_succ, List.getElem?_cons_succ,
      List.getElem?_cons_succ, List.getElem?_cons_succ] at he
    rw [List.getElem?_map] at he
    cases ht : (create_tasks now
        ((get_rows now active existing).1 ++ (get_rows now active existing).2.2))[n]? with
    | none => rw [ht] at he; simp at he
    | some t =>
      rw [ht] at he
      have he2 : CycleEvent.dispatch t = e := by simpa using he
      subst he2
      exact ⟨by simp [isBuild], by simp [isPersist], by simp [isDispatch]⟩

/-- Claim C7 counterexample: the claimed order puts persistence before task
building, but in the trace of a concrete cycle the buildTasks event (line
262 of the source) precedes the persist event (line 263), so it is not the
case that every persist event comes before every buildTasks event. -/
theorem cycle_persist_not_before_build :
    ¬ (∀ i j : Fin (trigger_lambdas_trace 0 ["p"] []).length,
        isPersist ((trigger_lambdas_trace 0 ["p"] []).get i) = true →
        isBuild ((trigger_lambdas_trace 0 ["p"] []).get j) = true →
        (i : Nat) < (j : Nat)) := by
  decide

/-- Claim C7 amended: each cycle runs fetch directory, fetch locks,
reconcile, build tasks, persist, dispatch strictly in that order: the events
at indices 0, 1, 2 are directory fetch, lock fetch and reconciliation, every
buildTasks event sits exactly at index 3, every persist event exactly at
index 4 (so each occurs once and build precedes persist), and every dispatch
event is at index 5 or later, so persistence completes before any dispatch
begins. -/
theorem cycle_order (now : Int) (active : List String) (existing : List Row) :
    (trigger_lambdas_trace now active existing)[0]? =
      some (CycleEvent.fetchDirectory active) ∧
    (trigger_lambdas_trace now active existing)[1]? =
      some (CycleEvent.fetchLocks existing) ∧
    (trigger_lambdas_trace now active existing)[2]? = some CycleEvent.reconcile ∧
    (∀ (i : Nat) (e : CycleEvent),
      (trigger_lambdas_trace now active existing)[i]? = some e →
      isBuild e = true → i = 3) ∧
    (∀ (i : Nat) (e : CycleEvent),
      (trigger_lambdas_trace now active existing)[i]? = some e →
      isPersist e = true → i = 4) ∧
    (∀ (i : Nat) (e : CycleEvent),
      (trigger_lambdas_trace now active existing)[i]? = some e →
      isDispatch e = true → 5 ≤ i) := by
  refine ⟨rfl, rfl, rfl, ?_, ?_, ?_⟩
  · intro i e he hb
    exact (trace_event_class now active existing i e he).1 hb
  · intro i e he hp
    exact (trace_event_class now active existing i e he).2.1 hp
  · intro i e he hd
    exact (trace_event_class now active existing i e he).2.2 hd

theorem cycle_order_witness :
    (3 : Nat) = 3 ∧ (4 : Nat) = 4 ∧ (5 : Nat) ≤ 5 :=
  ⟨(cycle_order 0 ["p"] []).2.2.2.1 3
      (CycleEvent.buildTasks [{ product_arn := "p", start_date := 1, last_date := 300000, last_event_date := 0 }])
      (by decide) (by decide),
   (cycle_order 0 ["p"] []).2.2.2.2.1 4
      (CycleEvent.persist [{ product_arn := "p", is_locked := 0, last_locked_date := 0, last_event_date := 0 }])
      (by decide) (by decide),
   (cycle_order 0 ["p"] []).2.2.2.2.2 5
      (CycleEvent.dispatch { product_arn := "p", start_date := 1, last_date := 300000, last_event_date := 0 })
      (by decide) (by decide)⟩
